import Mathlib

/-!
Shallow embedding of the client-side services of the `enviosextra` repository:
the desktop-access/IP-blocking service (`ipService`), the geolocation /
postal-code service (`GeolocationService`) and the delivery-estimate and
start-date helpers of the `Footer` / `PageTitle` components.

Browser state (localStorage, sessionStorage, `document.cookie`) is modelled
explicitly; network calls are modelled by oracle arguments of type
`Except Unit (FetchResp _)` (an `Except.error` is a thrown fetch / JSON error,
`FetchResp.ok` is the HTTP `response.ok` flag).
-/

namespace EnviosExtra

/-! ## String primitives

Structural models of the JavaScript string operations the code uses
(`split`, `trim`, `startsWith`, `toUpperCase`), over character lists so that
every definition evaluates by kernel reduction. -/

/-- Model of JavaScript `s.split(sep)` for a one-character separator:
never returns an empty list, `"".split(sep)` is `[""]`. -/
def splitOnChar (sep : Char) : List Char → List (List Char)
  | [] => [[]]
  | c :: rest =>
    if c = sep then [] :: splitOnChar sep rest
    else
      match splitOnChar sep rest with
      | [] => [[c]]
      | piece :: pieces => (c :: piece) :: pieces

/-- Model of JavaScript `s.trim()`: drop leading and trailing whitespace. -/
def trimChars (l : List Char) : List Char :=
  ((l.dropWhile Char.isWhitespace).reverse.dropWhile Char.isWhitespace).reverse

/-- Model of JavaScript `s.toUpperCase()` (ASCII range). -/
def toUpperStr (s : String) : String :=
  String.mk (s.data.map Char.toUpper)

/-! ## Browser storage model -/

/-- A Web-Storage area (localStorage / sessionStorage): an association list of
key/value pairs, most recent write first.  `getItem` is first-match lookup. -/
abbrev Storage := List (String × String)

/-- Model of `storage.setItem(key, value)`: later reads of `key` see `value`. -/
def setItem (s : Storage) (key value : String) : Storage :=
  (key, value) :: s

/-- Model of `storage.getItem(key)`: `none` models JavaScript `null`. -/
def getItem (s : Storage) (key : String) : Option String :=
  s.lookup key

/-- The whole local browser state touched by `ipService`:
both storage areas plus the serialized `document.cookie` string
(the `"name=value; name2=value2"` form the browser exposes to reads). -/
structure BrowserState where
  localStorage : Storage
  sessionStorage : Storage
  cookie : String
deriving Repr, DecidableEq

/-- Model of an assignment `document.cookie = assignment`: the browser keeps
only the leading `name=value` pair of the assignment (attributes such as
`expires` and `path` are not part of later reads of `document.cookie`) and
replaces any existing cookie of the same name. -/
def writeCookie (jar assignment : String) : String :=
  let nv := trimChars ((splitOnChar ';' assignment.data).headD [])
  let name := (splitOnChar '=' nv).headD []
  let entries := if jar.data = [] then [] else (splitOnChar ';' jar.data).map trimChars
  let kept := entries.filter (fun e => ¬ List.isPrefixOf (name ++ ['=']) e)
  String.intercalate "; " ((kept ++ [nv]).map String.mk)

/-! ## ipService constants and local-ban functions -/

/-- `const BANNED_KEY = "sp_access_blocked"`. -/
def BANNED_KEY : String := "sp_access_blocked"

/-- `const BANNED_DEVICE_KEY = "sp_device_id"`. -/
def BANNED_DEVICE_KEY : String := "sp_device_id"

/-- `ipService.markLocalBan()`: writes the `BANNED_KEY = "true"` marker into
localStorage, sessionStorage and a long-lived cookie. -/
def markLocalBan (s : BrowserState) : BrowserState :=
  { localStorage := setItem s.localStorage BANNED_KEY "true"
    sessionStorage := setItem s.sessionStorage BANNED_KEY "true"
    cookie := writeCookie s.cookie
      (BANNED_KEY ++ "=true; expires=Fri, 31 Dec 9999 23:59:59 GMT; path=/") }

/-- `ipService.isLocallyBanned()`: checks localStorage, then sessionStorage
(for the exact value `"true"`), then whether some `";"`-separated entry of
`document.cookie`, after trimming, starts with `"sp_access_blocked=true"`. -/
def isLocallyBanned (s : BrowserState) : Bool :=
  if getItem s.localStorage BANNED_KEY = some "true" then true
  else if getItem s.sessionStorage BANNED_KEY = some "true" then true
  else (splitOnChar ';' s.cookie.data).any
    (fun c => List.isPrefixOf (BANNED_KEY ++ "=true").data (trimChars c))

/-- Reading of the spec sentence "at least one of the three stores carries the
`sp_access_blocked` = `true` marker": localStorage or sessionStorage maps the
key to the exact string `"true"`, or the cookie string contains the exact
entry `"sp_access_blocked=true"` (up to surrounding whitespace). -/
def carriesBanMarker (s : BrowserState) : Prop :=
  getItem s.localStorage BANNED_KEY = some "true" ∨
  getItem s.sessionStorage BANNED_KEY = some "true" ∨
  (BANNED_KEY ++ "=true").data ∈ (splitOnChar ';' s.cookie.data).map trimChars

instance (s : BrowserState) : Decidable (carriesBanMarker s) := by
  unfold carriesBanMarker; infer_instance

/-! ## Device fingerprint (`generateDeviceId`) -/

/-- Digit character for bases up to 36, as produced by JavaScript
`Number.prototype.toString(base)` (lowercase letters from 10 on). -/
def natDigitChar36 (d : Nat) : Char :=
  if d < 10 then Char.ofNat (48 + d) else Char.ofNat (87 + d)

/-- Fuel-driven base conversion core (most significant digit first). -/
def natToBaseCore (b : Nat) : Nat → Nat → List Char → List Char
  | 0, _, acc => acc
  | fuel + 1, n, acc =>
    let d := natDigitChar36 (n % b)
    if n / b = 0 then d :: acc else natToBaseCore b fuel (n / b) (d :: acc)

/-- Model of JavaScript `n.toString(b)` for a nonnegative integer `n`. -/
def natToBase (b n : Nat) : String :=
  String.mk (natToBaseCore b (n + 1) n [])

/-- Wrap an integer to the signed 32-bit range, as the JavaScript `| 0`
coercion does. -/
def wrap32 (z : Int) : Int := (z + 2 ^ 31) % 2 ^ 32 - 2 ^ 31

/-- One step of the fingerprint hash loop:
`hash = ((hash << 5) - hash) + str.charCodeAt(i); hash |= 0;`
(the `<< 5` itself already wraps to 32 bits in JavaScript). -/
def hashStep (h : Int) (c : Nat) : Int :=
  wrap32 (wrap32 (h * 2 ^ 5) - h + c)

/-- The fingerprint hash of a string, folding `hashStep` over its characters
from an initial value of 0 (character codes modelled by Unicode code points,
which agree with UTF-16 code units on the Basic Multilingual Plane). -/
def hashString (s : String) : Int :=
  s.data.foldl (fun h c => hashStep h c.toNat) 0

/-- The browser/screen attributes that `generateDeviceId` reads. -/
structure DeviceAttrs where
  userAgent : String
  language : String
  timezoneOffset : Int
  colorDepth : Nat
  screenWidth : Nat
  screenHeight : Nat
  /-- `navigator.hardwareConcurrency`; `none` models `undefined` (the code
  replaces a falsy value by the empty string). -/
  hardwareConcurrency : Option Nat
deriving Repr, DecidableEq

/-- The `components` array of `generateDeviceId`, each entry coerced to a
string as `Array.prototype.join` does. -/
def deviceComponents (a : DeviceAttrs) : List String :=
  [ a.userAgent
  , a.language
  , toString a.timezoneOffset
  , toString a.colorDepth
  , toString a.screenWidth ++ "x" ++ toString a.screenHeight
  , match a.hardwareConcurrency with
    | some n => toString n
    | none => "" ]

/-- `ipService.generateDeviceId()`: hashes the joined attribute string and
appends the current time (`Date.now()`, here the explicit argument `now`)
in base 36:
`"dev_" + Math.abs(hash).toString(16) + "_" + Date.now().toString(36)`. -/
def generateDeviceId (a : DeviceAttrs) (now : Nat) : String :=
  "dev_" ++ natToBase 16 (hashString (String.intercalate "|||" (deviceComponents a))).natAbs
    ++ "_" ++ natToBase 36 now

/-! ## reportDesktopAccess -/

/-- `ipService.reportDesktopAccess()`: writes the device id and the ban
markers (localStorage, sessionStorage, cookie), then POSTs to the backend;
`post` is the outcome of that request (`Except.error` models a thrown
`apiRequest`).  On failure the catch block re-writes the two storage
markers; the function itself never propagates the error. -/
def reportDesktopAccess (s : BrowserState) (a : DeviceAttrs) (now : Nat)
    (post : Except Unit Unit) : BrowserState :=
  let deviceId := generateDeviceId a now
  let s1 : BrowserState :=
    { localStorage := setItem (setItem s.localStorage BANNED_DEVICE_KEY deviceId) BANNED_KEY "true"
      sessionStorage := setItem s.sessionStorage BANNED_KEY "true"
      cookie := writeCookie s.cookie
        (BANNED_KEY ++ "=true; expires=Fri, 31 Dec 9999 23:59:59 GMT; path=/") }
  match post with
  | .ok _ => s1
  | .error _ =>
    { s1 with
      localStorage := setItem s1.localStorage BANNED_KEY "true"
      sessionStorage := setItem s1.sessionStorage BANNED_KEY "true" }

/-! ## checkIfBanned -/

/-- An HTTP response that did arrive: the `response.ok` flag and the parsed
JSON body. -/
structure FetchResp (α : Type) where
  ok : Bool
  body : α
deriving Repr, DecidableEq

/-- JSON body of `/api/check-device/:id`. -/
structure DevBody where
  status : String
deriving Repr, DecidableEq

/-- JSON body of `/api/check-ip-status`. -/
structure IpBody where
  status : String
  ip : Option String
deriving Repr, DecidableEq

/-- JSON body of `/api/admin/check-ip-banned`. -/
structure LegBody where
  isBanned : Bool
  ip : Option String
deriving Repr, DecidableEq

/-- The network oracle: the outcome each endpoint would produce if consulted
(`Except.error` models a thrown fetch or JSON-parse error). -/
structure Net where
  dev : Except Unit (FetchResp DevBody)
  ipStatus : Except Unit (FetchResp IpBody)
  legacy : Except Unit (FetchResp LegBody)

/-- Return value of `checkIfBanned`. -/
structure BanCheck where
  isBanned : Bool
  ip : Option String
deriving Repr, DecidableEq

/-- The endpoints `checkIfBanned` can request, used to record the requests a
run actually issues. -/
inductive Endpoint where
  /-- `GET /api/check-device/:deviceId`. -/
  | checkDevice (deviceId : String)
  /-- `GET /api/check-ip-status`. -/
  | checkIpStatus
  /-- `POST /api/admin/register-device` (fired by `registerDeviceId`). -/
  | registerDevice
  /-- `GET /api/admin/check-ip-banned` (the legacy backup endpoint). -/
  | checkIpBannedLegacy
deriving Repr, DecidableEq

/-- Result of a run of `checkIfBanned`: the final browser state, the returned
value, and the list of endpoints actually requested, in order. -/
structure RunOut where
  state : BrowserState
  result : BanCheck
  trace : List Endpoint
deriving Repr, DecidableEq

/-- Step 4 of `checkIfBanned`: the legacy `/api/admin/check-ip-banned`
backup check, reached only when the IP-status request failed. -/
def legacyCheck (s : BrowserState) (leg : Except Unit (FetchResp LegBody))
    (tr : List Endpoint) : RunOut :=
  let tr2 := tr ++ [Endpoint.checkIpBannedLegacy]
  match leg with
  | .error _ => ⟨s, ⟨false, none⟩, tr2⟩
  | .ok r =>
    if r.ok then
      if r.body.isBanned then ⟨markLocalBan s, ⟨true, r.body.ip⟩, tr2⟩
      else ⟨s, ⟨false, r.body.ip⟩, tr2⟩
    else ⟨s, ⟨false, none⟩, tr2⟩

/-- Step 3 of `checkIfBanned`: the `/api/check-ip-status` check.  A positive
answer marks the local ban (and fires `registerDeviceId` when a device id is
stored); a successful negative answer returns immediately; a failed request
falls through to the legacy check. -/
def ipStep (s : BrowserState) (hasDevice : Bool)
    (ipr : Except Unit (FetchResp IpBody)) (leg : Except Unit (FetchResp LegBody))
    (tr : List Endpoint) : RunOut :=
  let tr2 := tr ++ [Endpoint.checkIpStatus]
  match ipr with
  | .ok r =>
    if r.ok then
      if r.body.status == "banned" then
        let tr3 := tr2 ++ (if hasDevice then [Endpoint.registerDevice] else [])
        ⟨markLocalBan s, ⟨true, r.body.ip⟩, tr3⟩
      else ⟨s, ⟨false, r.body.ip⟩, tr2⟩
    else legacyCheck s leg tr2
  | .error _ => legacyCheck s leg tr2

/-- `ipService.checkIfBanned()`.  `fault = true` models a top-level exception
raised inside the try body before any network request (for example a storage
access failure), which lands in the outer catch: fall back to the local
check and return without throwing. -/
def checkIfBanned (s : BrowserState) (net : Net) (fault : Bool) : RunOut :=
  if fault then ⟨s, ⟨isLocallyBanned s, none⟩, []⟩
  else if isLocallyBanned s then ⟨s, ⟨true, none⟩, []⟩
  else
    match getItem s.localStorage BANNED_DEVICE_KEY with
    | some did =>
      let tr1 := [Endpoint.checkDevice did]
      match net.dev with
      | .ok r =>
        if r.ok && r.body.status == "banned" then ⟨markLocalBan s, ⟨true, none⟩, tr1⟩
        else ipStep s true net.ipStatus net.legacy tr1
      | .error _ => ipStep s true net.ipStatus net.legacy tr1
    | none => ipStep s false net.ipStatus net.legacy []

/-- Whether the device-check endpoint, when consulted, answers with an OK
response whose status is `"banned"`. -/
def devPositive (d : Except Unit (FetchResp DevBody)) : Bool :=
  match d with
  | .ok r => r.ok && r.body.status == "banned"
  | .error _ => false

/-- Whether the IP-status request fails (network error or non-OK status),
which is the only way the legacy backup endpoint is reached. -/
def ipFailed (i : Except Unit (FetchResp IpBody)) : Bool :=
  match i with
  | .ok r => !r.ok
  | .error _ => true

/-- Whether the IP-status endpoint answers with an OK response whose status
is `"banned"`. -/
def ipPositive (i : Except Unit (FetchResp IpBody)) : Bool :=
  match i with
  | .ok r => r.ok && r.body.status == "banned"
  | .error _ => false

/-- Whether the legacy endpoint answers with an OK response whose `isBanned`
field is true. -/
def legPositive (g : Except Unit (FetchResp LegBody)) : Bool :=
  match g with
  | .ok r => r.ok && r.body.isBanned
  | .error _ => false

/-! ## GeolocationService -/

/-- Model of the JavaScript truthiness fallback `v || dflt` for a string
field: `none` is `undefined` and the empty string is also falsy. -/
def jsOrString (v : Option String) (dflt : String) : String :=
  match v with
  | none => dflt
  | some s => if s = "" then dflt else s

/-- Model of `a || b` where both operands are optional strings (used for
`result.state || result.province`). -/
def jsOrOpt (a b : Option String) : Option String :=
  match a with
  | none => b
  | some s => if s = "" then b else some s

/-- One raw item of the Zipcodebase `radius` response. -/
structure RadiusItem where
  city : Option String
  state : Option String
  code : String
  /-- Numeric value of `item.distance`; `none` models an absent field. -/
  distance : Option ℚ
deriving Repr, DecidableEq

/-- The standardized municipality record built by `getNearbyMunicipalities`. -/
structure Municipality where
  city : String
  state : String
  postal_code : String
  distance : ℚ
deriving Repr, DecidableEq

/-- The per-item transformation of `getNearbyMunicipalities`
(`item.city || "Ciudad Desconocida"`, `item.state || ""`, `item.code`,
`item.distance ? parseFloat(item.distance.toString()) : 0`; an absent or
zero `distance` is falsy and yields 0 either way). -/
def mapItem (it : RadiusItem) : Municipality :=
  { city := jsOrString it.city "Ciudad Desconocida"
    state := jsOrString it.state ""
    postal_code := it.code
    distance := match it.distance with
      | some q => q
      | none => 0 }

/-- First-occurrence deduplication by city, as the
`filter((m, i, self) => i === self.findIndex(m2 => m2.city === m.city))`
idiom keeps exactly the first element carrying each city name. -/
def dedupByCityAux (seen : List String) : List Municipality → List Municipality
  | [] => []
  | m :: rest =>
    if m.city ∈ seen then dedupByCityAux seen rest
    else m :: dedupByCityAux (m.city :: seen) rest

/-- First-occurrence deduplication by city (empty seen set). -/
def dedupByCity (l : List Municipality) : List Municipality :=
  dedupByCityAux [] l

/-- The sort key of the comparator `(a.distance || 999) - (b.distance || 999)`:
a distance of 0 is falsy in JavaScript and is compared as 999. -/
def distKey (m : Municipality) : ℚ :=
  if m.distance = 0 then 999 else m.distance

/-- The comparator order used by the final `sort` call. -/
def municipalityLe (a b : Municipality) : Prop :=
  distKey a ≤ distKey b

instance : DecidableRel municipalityLe := fun a b => by
  unfold municipalityLe; infer_instance

instance : IsTotal Municipality municipalityLe :=
  ⟨fun a b => le_total (distKey a) (distKey b)⟩

instance : IsTrans Municipality municipalityLe :=
  ⟨fun _ _ _ h1 h2 => le_trans h1 h2⟩

/-- The pure post-processing of `getNearbyMunicipalities`: map the raw items,
deduplicate by city keeping first occurrences, and stably sort by the
comparator key (ECMAScript `Array.prototype.sort` is stable, which an
insertion sort models exactly). -/
def processRadiusResults (results : List RadiusItem) : List Municipality :=
  List.insertionSort municipalityLe (dedupByCity (results.map mapItem))

/-- `GeolocationService.getNearbyMunicipalities`: a non-OK response throws
(and the catch block rethrows), a missing or non-array `results` field
returns `[]`, otherwise the processed list is returned. -/
def getNearbyMunicipalities
    (resp : Except Unit (FetchResp (Option (List RadiusItem)))) :
    Except Unit (List Municipality) :=
  match resp with
  | .error e => .error e
  | .ok r =>
    if r.ok then
      match r.body with
      | none => .ok []
      | some results => .ok (processRadiusResults results)
    else .error ()

/-- One raw result of the Zipcodebase `search` response for the queried code. -/
structure ZipResult where
  country_code : Option String
  state : Option String
  province : Option String
  city : Option String
deriving Repr, DecidableEq

/-- Return type of `validatePostalCodeWithZipcodebase`. -/
structure PostalCodeValidationResult where
  isValid : Bool
  country : String
  region : Option String
  city : Option String
  error : Option String
deriving Repr, DecidableEq

/-- `GeolocationService.validatePostalCodeWithZipcodebase(code, country)`.
The network oracle `resp` carries `Option (List ZipResult)`: the entry
`data.results[code]` of the parsed JSON, `none` when `data.results` or the
entry for the queried code is missing.  A thrown fetch/JSON error or a
non-OK status (which throws and is caught) lands in the catch block. -/
def validatePostalCodeWithZipcodebase (country : String)
    (resp : Except Unit (FetchResp (Option (List ZipResult)))) :
    PostalCodeValidationResult :=
  match resp with
  | .error _ =>
    { isValid := false, country := country, region := none, city := none
      error := some "API returned invalid response" }
  | .ok r =>
    if r.ok then
      match r.body with
      | some (first :: _) =>
        { isValid := true
          country := jsOrString first.country_code country
          region := jsOrOpt first.state first.province
          city := first.city
          error := none }
      | _ =>
        { isValid := false, country := country, region := none, city := none
          error := some "Código postal não encontrado" }
    else
      { isValid := false, country := country, region := none, city := none
        error := some "API returned invalid response" }

/-! ## validatePostalCodeFormat -/

/-- Model of `code.replace(/\s/g, "")`: remove every whitespace character. -/
def stripWs (s : String) : String :=
  String.mk (s.data.filter (fun c => !c.isWhitespace))

/-- Consume exactly `n` decimal digits from the front of the character list,
returning the remainder (the `\d{n}` regex atom). -/
def matchDigits : Nat → List Char → Option (List Char)
  | 0, l => some l
  | _ + 1, [] => none
  | n + 1, c :: l => if c.isDigit then matchDigits n l else none

/-- Consume exactly `n` uppercase letters `A`-`Z` from the front of the
character list (the `[A-Z]{n}` regex atom). -/
def matchUppers : Nat → List Char → Option (List Char)
  | 0, l => some l
  | _ + 1, [] => none
  | n + 1, c :: l => if ('A' ≤ c ∧ c ≤ 'Z') then matchUppers n l else none

/-- The anchored regex `^\d{7}$` (Chile). -/
def testCL (s : String) : Bool :=
  match matchDigits 7 s.data with
  | some [] => true
  | _ => false

/-- The anchored regex `^[A-Z]\d{4}[A-Z]{3}$` (Argentina). -/
def testAR (s : String) : Bool :=
  match matchUppers 1 s.data with
  | none => false
  | some r1 =>
    match matchDigits 4 r1 with
    | none => false
    | some r2 =>
      match matchUppers 3 r2 with
      | some [] => true
      | _ => false

/-- The anchored regex `^\d{5}$` (Mexico and Spain). -/
def testFiveDigits (s : String) : Bool :=
  match matchDigits 5 s.data with
  | some [] => true
  | _ => false

/-- The anchored regex `^\d{5}-?\d{3}$` (Brazil); since `-` is not a digit,
the optional hyphen is consumed exactly when present. -/
def testBR (s : String) : Bool :=
  match matchDigits 5 s.data with
  | none => false
  | some rest =>
    let rest2 := if rest.head? = some '-' then rest.tail else rest
    match matchDigits 3 rest2 with
    | some [] => true
    | _ => false

/-- The `patterns` table of `validatePostalCodeFormat`, keyed by the
uppercased country. -/
def patterns (k : String) : Option (String → Bool) :=
  if k = "CL" then some testCL
  else if k = "AR" then some testAR
  else if k = "MX" then some testFiveDigits
  else if k = "ES" then some testFiveDigits
  else if k = "BR" then some testBR
  else none

/-- `GeolocationService.validatePostalCodeFormat(code, country)`:
`pattern ? pattern.test(code.replace(/\s/g, "")) : true`. -/
def validatePostalCodeFormat (code country : String) : Bool :=
  match patterns (toUpperStr country) with
  | some pat => pat (stripWs code)
  | none => true

/-- Reading of the claim for the Brazilian pattern: five digits, optionally
followed by a hyphen, then three digits. -/
def brSpec (s : String) : Prop :=
  ∃ a b : List Char, a.length = 5 ∧ a.all Char.isDigit ∧
    b.length = 3 ∧ b.all Char.isDigit ∧
    (s.data = a ++ b ∨ s.data = a ++ '-' :: b)

/-- Reading of the claim for the Chilean pattern: exactly seven digits. -/
def clSpec (s : String) : Prop :=
  s.data.length = 7 ∧ s.data.all Char.isDigit

/-! ## Footer / PageTitle helpers -/

/-- The delivery-estimate generator of the API-backed path
(`Math.floor(Math.random() * (48 - 32 + 1)) + 32`), with the value of
`Math.random()` made an explicit argument `r`, `0 ≤ r < 1`. -/
def getRandomEntregas (r : ℚ) : ℤ :=
  ⌊r * (48 - 32 + 1)⌋ + 32

/-- The identical delivery-estimate generator of the Brazilian static path. -/
def getRandomEntregasStatic (r : ℚ) : ℤ :=
  ⌊r * (48 - 32 + 1)⌋ + 32

/-- A calendar date as JavaScript `Date` presents it through `getFullYear`,
`getMonth` (shifted to 1-based here) and `getDate`. -/
structure CivilDate where
  year : Nat
  month : Nat
  day : Nat
deriving Repr, DecidableEq

/-- Gregorian leap-year rule. -/
def isLeapYear (y : Nat) : Bool :=
  (y % 4 = 0 && y % 100 ≠ 0) || y % 400 = 0

/-- Number of days of month `m` (1-based) of year `y`. -/
def daysInMonth (y m : Nat) : Nat :=
  if m = 2 then (if isLeapYear y then 29 else 28)
  else if m = 4 ∨ m = 6 ∨ m = 9 ∨ m = 11 then 30
  else 31

/-- Validity of a civil date. -/
def ValidDate (d : CivilDate) : Prop :=
  1 ≤ d.month ∧ d.month ≤ 12 ∧ 1 ≤ d.day ∧ d.day ≤ daysInMonth d.year d.month

instance (d : CivilDate) : Decidable (ValidDate d) := by
  unfold ValidDate; infer_instance

/-- The calendar day after `d`. -/
def nextDay (d : CivilDate) : CivilDate :=
  if d.day < daysInMonth d.year d.month then ⟨d.year, d.month, d.day + 1⟩
  else if d.month < 12 then ⟨d.year, d.month + 1, 1⟩
  else ⟨d.year + 1, 1, 1⟩

/-- `n` calendar days after `d`. -/
def addDays (d : CivilDate) (n : Nat) : CivilDate :=
  Nat.iterate nextDay n d

/-- Model of `date.setDate(n)` for a `date` lying in year `y`, month `m`
and `n ≥ 1`: an overflowing day-of-month rolls over into the following
months (and years), exactly the ECMAScript `MakeDay` normalization. -/
def setDate (y m n : Nat) : CivilDate :=
  if n ≤ daysInMonth y m then ⟨y, m, n⟩
  else if m < 12 then setDate y (m + 1) (n - daysInMonth y m)
  else setDate (y + 1) 1 (n - daysInMonth y m)
termination_by n
decreasing_by
  all_goals
    refine Nat.sub_lt (by omega) ?_
    simp only [daysInMonth]
    repeat' split
    all_goals omega

/-- Day of the week of a civil date (0 = Sunday), by Sakamoto's method;
JavaScript `Date.prototype.getDay` computes the same value. -/
def dayOfWeek (dt : CivilDate) : Nat :=
  let t : List Nat := [0, 3, 2, 5, 0, 3, 5, 1, 4, 6, 2, 4]
  let y := if dt.month < 3 then dt.year - 1 else dt.year
  (y + y / 4 - y / 100 + y / 400 + t.getD (dt.month - 1) 0 + dt.day) % 7

/-- The `days` array of `getNextThreeDays`. -/
def daysNames : List String :=
  ["Domingo", "Lunes", "Martes", "Miércoles", "Jueves", "Viernes", "Sábado"]

/-- The `months` array of `getNextThreeDays`. -/
def monthsStrs : List String :=
  ["01", "02", "03", "04", "05", "06", "07", "08", "09", "10", "11", "12"]

/-- One entry pushed by the `getNextThreeDays` loop. -/
structure DateEntry where
  full : String
  value : String
deriving Repr, DecidableEq

/-- The entry built for a date: day name, day number and zero-padded month,
with the year of `value` hardcoded to the literal `2025`. -/
def mkDateEntry (dt : CivilDate) : DateEntry :=
  let dayName := daysNames.getD (dayOfWeek dt) ""
  let monthNumber := monthsStrs.getD (dt.month - 1) ""
  { full := dayName ++ " " ++ toString dt.day ++ "/" ++ monthNumber
    value := toString dt.day ++ "/" ++ monthNumber ++ "/2025" }

/-- `getNextThreeDays()` (identical in `Footer.tsx` and `PageTitle.tsx`):
for `i = 1, 2, 3` build the entry of the date obtained by
`date.setDate(today.getDate() + i)` on a fresh copy of `today`. -/
def getNextThreeDays (today : CivilDate) : List DateEntry :=
  (List.range 3).map (fun i => mkDateEntry (setDate today.year today.month (today.day + (i + 1))))

/-! ## Helper lemmas -/

/-- After `markLocalBan` the localStorage marker alone already makes
`isLocallyBanned` answer `true`. -/
lemma isLocallyBanned_markLocalBan (s : BrowserState) :
    isLocallyBanned (markLocalBan s) = true := by
  simp [isLocallyBanned, markLocalBan, getItem, setItem, List.lookup]

/-- Soundness and completeness of the `\d{n}` atom: `matchDigits n`
succeeds with remainder `r` exactly when the input splits as `n` digits
followed by `r`. -/
lemma matchDigits_some_iff {n : Nat} {l r : List Char} :
    matchDigits n l = some r ↔
    ∃ a, l = a ++ r ∧ a.length = n ∧ a.all Char.isDigit = true := by
  induction n generalizing l with
  | zero =>
    constructor
    · intro h
      simp only [matchDigits, Option.some.injEq] at h
      exact ⟨[], by simp [h], rfl, rfl⟩
    · rintro ⟨a, h1, h2, _⟩
      have : a = [] := List.length_eq_zero.mp h2
      subst this
      simpa [matchDigits] using h1
  | succ n ih =>
    cases l with
    | nil =>
      constructor
      · intro h
        simp [matchDigits] at h
      · rintro ⟨a, h1, h2, _⟩
        cases a with
        | nil => simp at h2
        | cons c cs => simp at h1
    | cons c cs =>
      constructor
      · intro h
        simp only [matchDigits] at h
        by_cases hc : c.isDigit
        · rw [if_pos hc] at h
          obtain ⟨a, ha1, ha2, ha3⟩ := ih.mp h
          exact ⟨c :: a, by simp [ha1], by simp [ha2],
            by simp [List.all_cons, hc, ha3]⟩
        · rw [if_neg hc] at h
          cases h
      · rintro ⟨a, h1, h2, h3⟩
        cases a with
        | nil => simp at h2
        | cons d ds =>
          simp only [List.cons_append, List.cons.injEq] at h1
          obtain ⟨rfl, hcs⟩ := h1
          simp only [List.all_cons, Bool.and_eq_true] at h3
          simp only [matchDigits, if_pos h3.1]
          exact ih.mpr ⟨ds, hcs, by simpa using h2, h3.2⟩

/-- The Chilean pattern accepts exactly the seven-digit strings. -/
lemma testCL_iff (s : String) : testCL s = true ↔ clSpec s := by
  unfold testCL clSpec
  constructor
  · intro h
    cases hm : matchDigits 7 s.data with
    | none => rw [hm] at h; cases h
    | some r =>
      rw [hm] at h
      cases r with
      | nil =>
        obtain ⟨a, ha1, ha2, ha3⟩ := matchDigits_some_iff.mp hm
        rw [List.append_nil] at ha1
        subst ha1
        exact ⟨ha2, ha3⟩
      | cons d ds => cases h
  · rintro ⟨h1, h2⟩
    have hm : matchDigits 7 s.data = some [] :=
      matchDigits_some_iff.mpr ⟨s.data, by simp, h1, h2⟩
    rw [hm]

/-- The Brazilian pattern accepts exactly five digits, an optional hyphen,
then three digits. -/
lemma testBR_iff (s : String) : testBR s = true ↔ brSpec s := by
  unfold testBR brSpec
  constructor
  · intro h
    cases hm : matchDigits 5 s.data with
    | none => rw [hm] at h; cases h
    | some rest =>
      rw [hm] at h
      obtain ⟨a, ha1, ha2, ha3⟩ := matchDigits_some_iff.mp hm
      by_cases hd : rest.head? = some '-'
      · simp only [if_pos hd] at h
        cases rest with
        | nil => cases hd
        | cons c cs =>
          simp only [List.head?_cons, Option.some.injEq] at hd
          subst hd
          simp only [List.tail_cons] at h
          cases h3 : matchDigits 3 cs with
          | none => rw [h3] at h; cases h
          | some b =>
            rw [h3] at h
            cases b with
            | nil =>
              obtain ⟨b, hb1, hb2, hb3⟩ := matchDigits_some_iff.mp h3
              rw [List.append_nil] at hb1
              subst hb1
              exact ⟨a, cs, ha2, ha3, hb2, hb3, Or.inr ha1⟩
            | cons e es => cases h
      · simp only [if_neg hd] at h
        cases h3 : matchDigits 3 rest with
        | none => rw [h3] at h; cases h
        | some b =>
          rw [h3] at h
          cases b with
          | nil =>
            obtain ⟨b, hb1, hb2, hb3⟩ := matchDigits_some_iff.mp h3
            rw [List.append_nil] at hb1
            subst hb1
            exact ⟨a, rest, ha2, ha3, hb2, hb3, Or.inl ha1⟩
          | cons e es => cases h
  · rintro ⟨a, b, h5, hA, h3len, hB, hor⟩
    have hmB : matchDigits 3 b = some [] :=
      matchDigits_some_iff.mpr ⟨b, (List.append_nil b).symm, h3len, hB⟩
    cases hor with
    | inl h =>
      have hmA : matchDigits 5 s.data = some b :=
        matchDigits_some_iff.mpr ⟨a, h, h5, hA⟩
      rw [hmA]
      cases b with
      | nil => simp at h3len
      | cons c cs =>
        have hc : c.isDigit = true := by
          simp only [List.all_cons, Bool.and_eq_true] at hB
          exact hB.1
        have hne : ¬ (c :: cs).head? = some '-' := by
          simp only [List.head?_cons, Option.some.injEq]
          intro hcc
          subst hcc
          exact absurd hc (by decide)
        simp only [if_neg hne, hmB]
    | inr h =>
      have hmA : matchDigits 5 s.data = some ('-' :: b) :=
        matchDigits_some_iff.mpr ⟨a, h, h5, hA⟩
      rw [hmA]
      simp only [List.head?_cons, if_pos rfl, List.tail_cons, if_true, hmB]

end EnviosExtra

namespace EnviosExtra

/-! ## Claim theorems -/

/-- C1 counterexample: with the single cookie `sp_access_blocked=truex`
(value `"truex"`, not `"true"`), `isLocallyBanned` answers `true` although
none of the three stores carries the `sp_access_blocked` = `true` marker,
because the cookie test only checks a prefix.  So the stated
"exactly when" equivalence is false at this state. -/
theorem C1_counterexample :
    isLocallyBanned ⟨[], [], "sp_access_blocked=truex"⟩ = true ∧
    ¬ carriesBanMarker ⟨[], [], "sp_access_blocked=truex"⟩ := by
  decide

/-- C1 (amended): after `markLocalBan` runs, `isLocallyBanned` returns
`true`; and `isLocallyBanned` returns `true` exactly when localStorage or
sessionStorage maps `sp_access_blocked` to `"true"`, or some
`";"`-separated entry of the cookie string starts, after trimming, with
`"sp_access_blocked=true"` (the exact-value marker is sufficient but not
necessary for the cookie store). -/
theorem C1_markLocalBan_isLocallyBanned (s : BrowserState) :
    isLocallyBanned (markLocalBan s) = true ∧
    (isLocallyBanned s = true ↔
      getItem s.localStorage BANNED_KEY = some "true" ∨
      getItem s.sessionStorage BANNED_KEY = some "true" ∨
      ∃ c ∈ splitOnChar ';' s.cookie.data,
        List.isPrefixOf (BANNED_KEY ++ "=true").data (trimChars c) = true) := by
  refine ⟨isLocallyBanned_markLocalBan s, ?_⟩
  simp only [isLocallyBanned]
  split_ifs with h1 h2 <;> simp_all [List.any_eq_true]

/-- C3 counterexample: two calls of `generateDeviceId` with identical device
attributes but different call times (`Date.now()` values 0 and 1) return
different identifiers, so the stated determinism over the attributes alone
is false. -/
theorem C3_counterexample :
    generateDeviceId ⟨"M", "e", 0, 24, 1, 1, none⟩ 0 ≠
    generateDeviceId ⟨"M", "e", 0, 24, 1, 1, none⟩ 1 := by
  set_option maxRecDepth 8192 in decide

/-- C3 (amended): for a fixed attribute tuple, any two calls of
`generateDeviceId` agree on everything before the trailing suffix: both
identifiers are the same attribute-determined hash component followed by
`"_"` and the base-36 encoding of the respective call time. -/
theorem C3_deviceId_hash_deterministic (a : DeviceAttrs) (t1 t2 : Nat) :
    ∃ h s1 s2 : String,
      generateDeviceId a t1 = h ++ "_" ++ s1 ∧
      generateDeviceId a t2 = h ++ "_" ++ s2 ∧
      s1 = natToBase 36 t1 ∧ s2 = natToBase 36 t2 := by
  exact ⟨"dev_" ++ natToBase 16
    (hashString (String.intercalate "|||" (deviceComponents a))).natAbs,
    natToBase 36 t1, natToBase 36 t2, rfl, rfl, rfl, rfl⟩

/-- C4: whatever the outcome of the POST to
`/api/admin/report-desktop-access` (success or a thrown error), after
`reportDesktopAccess` completes both localStorage and sessionStorage carry
`sp_access_blocked = "true"`; the function is total, never propagating the
error. -/
theorem C4_reportDesktopAccess_marks (s : BrowserState) (a : DeviceAttrs)
    (now : Nat) (post : Except Unit Unit) :
    getItem (reportDesktopAccess s a now post).localStorage BANNED_KEY = some "true" ∧
    getItem (reportDesktopAccess s a now post).sessionStorage BANNED_KEY = some "true" := by
  cases post <;> simp [reportDesktopAccess, getItem, setItem, List.lookup]

/-- C6: for every value `r` of the underlying random source (`Math.random()`
returns `0 ≤ r < 1`), the generated delivery estimate lies between 32 and 48
inclusive, in the API-backed path and in the Brazilian static path alike. -/
theorem C6_entregas_bounds (r : ℚ) (h0 : 0 ≤ r) (h1 : r < 1) :
    (32 ≤ getRandomEntregas r ∧ getRandomEntregas r ≤ 48) ∧
    (32 ≤ getRandomEntregasStatic r ∧ getRandomEntregasStatic r ≤ 48) := by
  have h2 : (0 : ℤ) ≤ ⌊r * (48 - 32 + 1)⌋ :=
    Int.floor_nonneg.mpr (by nlinarith)
  have h3 : ⌊r * (48 - 32 + 1)⌋ < 17 := by
    rw [Int.floor_lt]
    push_cast
    nlinarith
  unfold getRandomEntregas getRandomEntregasStatic
  omega

/-- C6 witness: the bounds instantiated at the concrete random value 1/2. -/
theorem C6_entregas_bounds_witness :
    (32 ≤ getRandomEntregas (1 / 2) ∧ getRandomEntregas (1 / 2) ≤ 48) ∧
    (32 ≤ getRandomEntregasStatic (1 / 2) ∧ getRandomEntregasStatic (1 / 2) ≤ 48) :=
  C6_entregas_bounds (1 / 2) (by norm_num) (by norm_num)

/-- C7: `validatePostalCodeFormat` accepts a Brazilian code exactly when,
after removing whitespace, it is five digits, an optional hyphen and three
digits; a Chilean code exactly when, after removing whitespace, it is seven
digits; and for a country whose uppercased name is outside the pattern
table it accepts every input. -/
theorem C7_validatePostalCodeFormat (code country : String) :
    (toUpperStr country = "BR" →
      (validatePostalCodeFormat code country = true ↔ brSpec (stripWs code))) ∧
    (toUpperStr country = "CL" →
      (validatePostalCodeFormat code country = true ↔ clSpec (stripWs code))) ∧
    (toUpperStr country ∉ (["CL", "AR", "MX", "ES", "BR"] : List String) →
      validatePostalCodeFormat code country = true) := by
  refine ⟨?_, ?_, ?_⟩
  · intro h
    unfold validatePostalCodeFormat
    rw [h]
    have hp : patterns "BR" = some testBR := rfl
    rw [hp]
    exact testBR_iff _
  · intro h
    unfold validatePostalCodeFormat
    rw [h]
    have hp : patterns "CL" = some testCL := rfl
    rw [hp]
    exact testCL_iff _
  · intro h
    have hp : patterns (toUpperStr country) = none := by
      unfold patterns
      split_ifs with h1 h2 h3 h4 h5 <;>
        first
        | rfl
        | (exfalso; apply h; simp_all)
    unfold validatePostalCodeFormat
    rw [hp]

/-- C7 witness: the three branches instantiated at concrete codes and
countries (lowercase country names exercise the case-insensitive lookup). -/
theorem C7_validatePostalCodeFormat_witness :
    validatePostalCodeFormat "01310-100" "br" = true ∧
    validatePostalCodeFormat "7 500000" "cl" = true ∧
    validatePostalCodeFormat "12345" "US" = true := by
  refine ⟨?_, ?_, ?_⟩
  · exact ((C7_validatePostalCodeFormat "01310-100" "br").1 (by decide)).mpr
      ⟨['0', '1', '3', '1', '0'], ['1', '0', '0'],
        by decide, by decide, by decide, by decide, Or.inr (by decide)⟩
  · exact ((C7_validatePostalCodeFormat "7 500000" "cl").2.1 (by decide)).mpr
      ⟨by decide, by decide⟩
  · exact (C7_validatePostalCodeFormat "12345" "US").2.2 (by decide)

/-- C8 counterexample: when the first API result carries an empty
`country_code`, the function returns the queried country (here `"CL"`)
rather than the country taken from the first API result (the empty string),
because of the `result.country_code || country` fallback.  So the stated
field provenance is false at this input. -/
theorem C8_counterexample :
    validatePostalCodeWithZipcodebase "CL"
      (Except.ok ⟨true, some [⟨some "", some "RM", none, some "Santiago"⟩]⟩) =
      ⟨true, "CL", some "RM", some "Santiago", none⟩ ∧
    ZipResult.country_code ⟨some "", some "RM", none, some "Santiago"⟩ = some "" ∧
    ("CL" : String) ≠ "" := by
  refine ⟨by decide, rfl, by decide⟩

/-- C8 (amended): `validatePostalCodeWithZipcodebase` is total (never
throws); it returns `isValid = true` exactly when the response arrived with
an OK status and a non-empty result array for the queried code, in which
case the country is the first result's `country_code` when that is present
and non-empty and the queried country otherwise, the region is the first
result's `state` or, when that is absent or empty, its `province`, and the
city is the first result's `city`; in every other case (empty result,
non-OK status, or network error) it returns `isValid = false` with the
input country and a non-empty error message. -/
theorem C8_validateZipcodebase (country : String)
    (resp : Except Unit (FetchResp (Option (List ZipResult)))) :
    ((validatePostalCodeWithZipcodebase country resp).isValid = true ↔
      ∃ first rest, resp = Except.ok ⟨true, some (first :: rest)⟩) ∧
    (∀ first rest, resp = Except.ok ⟨true, some (first :: rest)⟩ →
      validatePostalCodeWithZipcodebase country resp =
        ⟨true, jsOrString first.country_code country,
          jsOrOpt first.state first.province, first.city, none⟩) ∧
    ((validatePostalCodeWithZipcodebase country resp).isValid = false →
      (validatePostalCodeWithZipcodebase country resp).country = country ∧
      ((validatePostalCodeWithZipcodebase country resp).error).isSome = true) := by
  rcases resp with e | r
  · simp [validatePostalCodeWithZipcodebase]
  · rcases r with ⟨ok, body⟩
    cases ok
    · simp [validatePostalCodeWithZipcodebase]
    · rcases body with _ | (_ | ⟨first, rest⟩) <;>
        simp [validatePostalCodeWithZipcodebase]

/-- C8 witness: the positive branch instantiated at a concrete OK response
with one result. -/
theorem C8_validateZipcodebase_witness :
    validatePostalCodeWithZipcodebase "XX"
      (Except.ok ⟨true, some [⟨some "CL", some "RM", none, some "Santiago"⟩]⟩) =
      ⟨true, jsOrString (some "CL") "XX", jsOrOpt (some "RM") none,
        some "Santiago", none⟩ :=
  (C8_validateZipcodebase "XX"
      (Except.ok ⟨true, some [⟨some "CL", some "RM", none, some "Santiago"⟩]⟩)).2.1
    ⟨some "CL", some "RM", none, some "Santiago"⟩ [] rfl

/-- Cities of elements produced by `dedupByCityAux` avoid the seen set. -/
lemma dedupByCityAux_not_seen :
    ∀ (l : List Municipality) (seen : List String) (m : Municipality),
      m ∈ dedupByCityAux seen l → m.city ∉ seen := by
  intro l
  induction l with
  | nil => intro seen m h; simp [dedupByCityAux] at h
  | cons m0 rest ih =>
    intro seen m h
    by_cases h0 : m0.city ∈ seen
    · rw [dedupByCityAux, if_pos h0] at h
      exact ih seen m h
    · rw [dedupByCityAux, if_neg h0] at h
      rcases List.mem_cons.mp h with h1 | h1
      · subst h1; exact h0
      · have := ih (m0.city :: seen) m h1
        exact fun hc => this (List.mem_cons_of_mem _ hc)

/-- The deduplicated list has pairwise-distinct city names. -/
lemma dedupByCityAux_pairwise :
    ∀ (l : List Municipality) (seen : List String),
      List.Pairwise (fun a b => a.city ≠ b.city) (dedupByCityAux seen l) := by
  intro l
  induction l with
  | nil => intro seen; simp [dedupByCityAux]
  | cons m0 rest ih =>
    intro seen
    by_cases h0 : m0.city ∈ seen
    · rw [dedupByCityAux, if_pos h0]; exact ih seen
    · rw [dedupByCityAux, if_neg h0]
      refine List.Pairwise.cons ?_ (ih (m0.city :: seen))
      intro b hb
      have := dedupByCityAux_not_seen rest (m0.city :: seen) b hb
      exact fun hc => this (hc ▸ List.mem_cons_self _ _)

/-- The deduplicated list is a sublist of the input: each kept element is an
occurrence from the input, in input order. -/
lemma dedupByCityAux_sublist :
    ∀ (l : List Municipality) (seen : List String),
      List.Sublist (dedupByCityAux seen l) l := by
  intro l
  induction l with
  | nil => intro seen; simp [dedupByCityAux]
  | cons m0 rest ih =>
    intro seen
    by_cases h0 : m0.city ∈ seen
    · rw [dedupByCityAux, if_pos h0]
      exact List.Sublist.cons m0 (ih seen)
    · rw [dedupByCityAux, if_neg h0]
      exact List.Sublist.cons₂ m0 (ih (m0.city :: seen))

/-- C9 counterexample: for the well-formed two-item response where the first
item has no distance (mapped to 0) and the second has distance 5, the
returned list is not sorted by distance in non-decreasing order: the
comparator treats the falsy distance 0 as 999, so the zero-distance entry
sorts last and the distances read `[5, 0]`. -/
theorem C9_counterexample :
    getNearbyMunicipalities
      (Except.ok ⟨true, some [⟨some "A", some "", "100", none⟩,
        ⟨some "B", some "", "200", some 5⟩]⟩) =
      Except.ok (processRadiusResults [⟨some "A", some "", "100", none⟩,
        ⟨some "B", some "", "200", some 5⟩]) ∧
    processRadiusResults [⟨some "A", some "", "100", none⟩,
        ⟨some "B", some "", "200", some 5⟩] =
      [⟨"B", "", "200", 5⟩, ⟨"A", "", "100", 0⟩] ∧
    ¬ List.Sorted (fun a b : Municipality => a.distance ≤ b.distance)
      [⟨"B", "", "200", 5⟩, ⟨"A", "", "100", 0⟩] := by
  refine ⟨rfl, by decide, ?_⟩
  · intro h
    have := List.rel_of_sorted_cons h _ (List.mem_singleton.mpr rfl)
    norm_num at this

/-- C9 (amended): for every well-formed results array, the returned list has
pairwise-distinct city names, is a permutation of the first-occurrence
deduplication of the mapped input (which is a sublist of the mapped input,
so exactly the first occurrence of each city is kept), and is sorted
non-decreasingly by the comparator key `distance || 999` — that is, by
distance with a distance of exactly 0 compared as 999. -/
theorem C9_nearby_dedup_sorted (results : List RadiusItem) (l : List Municipality)
    (h : getNearbyMunicipalities (Except.ok ⟨true, some results⟩) = Except.ok l) :
    List.Pairwise (fun a b => a.city ≠ b.city) l ∧
    List.Sorted municipalityLe l ∧
    List.Perm l (dedupByCity (results.map mapItem)) ∧
    List.Sublist (dedupByCity (results.map mapItem)) (results.map mapItem) := by
  have hl : l = processRadiusResults results := by
    simpa [getNearbyMunicipalities] using h.symm
  subst hl
  refine ⟨?_, ?_, ?_, ?_⟩
  · exact ((List.perm_insertionSort municipalityLe _).pairwise_iff
      (fun h12 => Ne.symm h12)).mpr (dedupByCityAux_pairwise _ [])
  · exact List.sorted_insertionSort municipalityLe _
  · exact List.perm_insertionSort municipalityLe _
  · exact dedupByCityAux_sublist _ []

/-- C9 witness: the amended properties instantiated at a concrete response
containing a duplicate city and a zero-distance item. -/
theorem C9_nearby_dedup_sorted_witness :
    List.Pairwise (fun a b => a.city ≠ b.city)
      (processRadiusResults [⟨some "A", some "", "1", some 3⟩,
        ⟨some "A", some "", "2", some 7⟩, ⟨some "B", some "", "3", none⟩]) ∧
    List.Sorted municipalityLe
      (processRadiusResults [⟨some "A", some "", "1", some 3⟩,
        ⟨some "A", some "", "2", some 7⟩, ⟨some "B", some "", "3", none⟩]) ∧
    List.Perm
      (processRadiusResults [⟨some "A", some "", "1", some 3⟩,
        ⟨some "A", some "", "2", some 7⟩, ⟨some "B", some "", "3", none⟩])
      (dedupByCity ([⟨some "A", some "", "1", some 3⟩,
        ⟨some "A", some "", "2", some 7⟩,
        ⟨some "B", some "", "3", none⟩].map mapItem)) ∧
    List.Sublist
      (dedupByCity ([⟨some "A", some "", "1", some 3⟩,
        ⟨some "A", some "", "2", some 7⟩,
        ⟨some "B", some "", "3", none⟩].map mapItem))
      ([⟨some "A", some "", "1", some 3⟩, ⟨some "A", some "", "2", some 7⟩,
        ⟨some "B", some "", "3", none⟩].map mapItem) :=
  C9_nearby_dedup_sorted
    [⟨some "A", some "", "1", some 3⟩, ⟨some "A", some "", "2", some 7⟩,
      ⟨some "B", some "", "3", none⟩] _ rfl

/-- Behaviour of the legacy backup step: it answers positively exactly when
the legacy endpoint does, marks the local ban on a positive answer, and
appends exactly the legacy endpoint to the request trace. -/
lemma legacyCheck_spec (s : BrowserState) (leg : Except Unit (FetchResp LegBody))
    (tr : List Endpoint) :
    ((legacyCheck s leg tr).result.isBanned = true ↔ legPositive leg = true) ∧
    ((legacyCheck s leg tr).result.isBanned = true →
      isLocallyBanned (legacyCheck s leg tr).state = true) ∧
    (legacyCheck s leg tr).trace = tr ++ [Endpoint.checkIpBannedLegacy] := by
  rcases leg with e | ⟨ok, body⟩
  · simp [legacyCheck, legPositive]
  · cases ok <;> cases hb : body.isBanned <;>
      simp [legacyCheck, legPositive, hb, isLocallyBanned_markLocalBan]

/-- Behaviour of the IP-status step (with the legacy backup behind it):
a positive overall answer arises exactly from a positive IP-status answer or
from a failed IP-status request followed by a positive legacy answer; a
positive answer marks the local ban; and the legacy endpoint appears in the
request trace exactly when the IP-status request failed. -/
lemma ipStep_spec (s : BrowserState) (hasDevice : Bool)
    (ipr : Except Unit (FetchResp IpBody)) (leg : Except Unit (FetchResp LegBody))
    (tr : List Endpoint) (htr : Endpoint.checkIpBannedLegacy ∉ tr) :
    ((ipStep s hasDevice ipr leg tr).result.isBanned = true ↔
      (ipPositive ipr || (ipFailed ipr && legPositive leg)) = true) ∧
    ((ipStep s hasDevice ipr leg tr).result.isBanned = true →
      isLocallyBanned (ipStep s hasDevice ipr leg tr).state = true) ∧
    (Endpoint.checkIpBannedLegacy ∈ (ipStep s hasDevice ipr leg tr).trace ↔
      ipFailed ipr = true) := by
  rcases ipr with e | ⟨ok, body⟩
  · obtain ⟨h1, h2, h3⟩ := legacyCheck_spec s leg (tr ++ [Endpoint.checkIpStatus])
    refine ⟨?_, ?_, ?_⟩
    · simpa [ipStep, ipPositive, ipFailed] using h1
    · simpa [ipStep] using h2
    · simp [ipStep, ipFailed, h3]
  · cases ok
    · obtain ⟨h1, h2, h3⟩ := legacyCheck_spec s leg (tr ++ [Endpoint.checkIpStatus])
      refine ⟨?_, ?_, ?_⟩
      · simpa [ipStep, ipPositive, ipFailed] using h1
      · simpa [ipStep] using h2
      · simp [ipStep, ipFailed, h3]
    · cases hb : body.status == "banned" <;>
        cases hasDevice <;>
          simp [ipStep, ipPositive, ipFailed, hb,
            isLocallyBanned_markLocalBan, htr]

/-- C2 counterexample: with no local ban, no stored device id, an OK
negative answer from the IP-status endpoint and a legacy endpoint that
would report a ban, `checkIfBanned` returns `isBanned = false` without ever
consulting the legacy `check-ip-banned` endpoint — contradicting the stated
"consults, in order, ... and the legacy check-ip-banned endpoint" and
"returns false only after every check finds no ban". -/
theorem C2_counterexample :
    isLocallyBanned ⟨[], [], ""⟩ = false ∧
    (checkIfBanned ⟨[], [], ""⟩
      ⟨Except.error (), Except.ok ⟨true, ⟨"ok", some "1.2.3.4"⟩⟩,
        Except.ok ⟨true, ⟨true, some "9.9.9.9"⟩⟩⟩ false).result.isBanned = false ∧
    Endpoint.checkIpBannedLegacy ∉
      (checkIfBanned ⟨[], [], ""⟩
        ⟨Except.error (), Except.ok ⟨true, ⟨"ok", some "1.2.3.4"⟩⟩,
          Except.ok ⟨true, ⟨true, some "9.9.9.9"⟩⟩⟩ false).trace ∧
    legPositive (Except.ok ⟨true, ⟨true, some "9.9.9.9"⟩⟩) = true := by
  decide

/-- C2 (amended): `checkIfBanned` is total (never throws).  On a top-level
error it falls back to the local check, issuing no request.  When the device
is locally banned it returns `isBanned = true` without issuing any request.
Otherwise it consults the stored-device-id endpoint (when a device id is
stored) and then the IP-status endpoint; the legacy `check-ip-banned`
endpoint is consulted exactly when the IP-status request fails (network
error or non-OK status) and no earlier check was positive.  It returns
`isBanned = true` exactly at the first positive answer, also marking the
local ban, and returns `isBanned = false` when every check it actually
performed found no ban — including immediately after a successful negative
IP-status answer, without consulting the legacy endpoint. -/
theorem C2_checkIfBanned (s : BrowserState) (net : Net) (fault : Bool) :
    (fault = true →
      checkIfBanned s net fault = ⟨s, ⟨isLocallyBanned s, none⟩, []⟩) ∧
    (fault = false → isLocallyBanned s = true →
      checkIfBanned s net fault = ⟨s, ⟨true, none⟩, []⟩) ∧
    (fault = false → isLocallyBanned s = false →
      ((checkIfBanned s net fault).result.isBanned = true ↔
        (((getItem s.localStorage BANNED_DEVICE_KEY).isSome && devPositive net.dev)
          || ipPositive net.ipStatus
          || (ipFailed net.ipStatus && legPositive net.legacy)) = true) ∧
      ((checkIfBanned s net fault).result.isBanned = true →
        isLocallyBanned (checkIfBanned s net fault).state = true) ∧
      (Endpoint.checkIpBannedLegacy ∈ (checkIfBanned s net fault).trace ↔
        (!((getItem s.localStorage BANNED_DEVICE_KEY).isSome && devPositive net.dev)
          && ipFailed net.ipStatus) = true)) := by
  refine ⟨?_, ?_, ?_⟩
  · intro h; subst h; simp [checkIfBanned]
  · intro hf hl; subst hf; simp [checkIfBanned, hl]
  · intro hf hl; subst hf
    cases hdid : getItem s.localStorage BANNED_DEVICE_KEY with
    | none =>
      obtain ⟨h1, h2, h3⟩ := ipStep_spec s false net.ipStatus net.legacy [] (by simp)
      have hck : checkIfBanned s net false = ipStep s false net.ipStatus net.legacy [] := by
        simp [checkIfBanned, hl, hdid]
      rw [hck]
      exact ⟨by rw [h1]; simp, h2, by simp [h3]⟩
    | some did =>
      rcases hdev : net.dev with e | ⟨ok, body⟩
      · obtain ⟨h1, h2, h3⟩ := ipStep_spec s true net.ipStatus net.legacy
          [Endpoint.checkDevice did] (by simp)
        have hck : checkIfBanned s net false =
            ipStep s true net.ipStatus net.legacy [Endpoint.checkDevice did] := by
          simp [checkIfBanned, hl, hdid, hdev]
        rw [hck]
        exact ⟨by rw [h1]; simp [devPositive], h2, by simp [h3, devPositive]⟩
      · cases ok <;> cases hb : body.status == "banned"
        · obtain ⟨h1, h2, h3⟩ := ipStep_spec s true net.ipStatus net.legacy
            [Endpoint.checkDevice did] (by simp)
          have hck : checkIfBanned s net false =
              ipStep s true net.ipStatus net.legacy [Endpoint.checkDevice did] := by
            simp [checkIfBanned, hl, hdid, hdev, hb]
          rw [hck]
          exact ⟨by rw [h1]; simp [devPositive, hb], h2, by simp [h3, devPositive, hb]⟩
        · obtain ⟨h1, h2, h3⟩ := ipStep_spec s true net.ipStatus net.legacy
            [Endpoint.checkDevice did] (by simp)
          have hck : checkIfBanned s net false =
              ipStep s true net.ipStatus net.legacy [Endpoint.checkDevice did] := by
            simp [checkIfBanned, hl, hdid, hdev, hb]
          rw [hck]
          exact ⟨by rw [h1]; simp [devPositive, hb], h2, by simp [h3, devPositive, hb]⟩
        · obtain ⟨h1, h2, h3⟩ := ipStep_spec s true net.ipStatus net.legacy
            [Endpoint.checkDevice did] (by simp)
          have hck : checkIfBanned s net false =
              ipStep s true net.ipStatus net.legacy [Endpoint.checkDevice did] := by
            simp [checkIfBanned, hl, hdid, hdev, hb]
          rw [hck]
          exact ⟨by rw [h1]; simp [devPositive, hb], h2, by simp [h3, devPositive, hb]⟩
        · have hck : checkIfBanned s net false =
              ⟨markLocalBan s, ⟨true, none⟩, [Endpoint.checkDevice did]⟩ := by
            simp [checkIfBanned, hl, hdid, hdev, hb]
          rw [hck]
          refine ⟨by simp [devPositive, hb], ?_, by simp [devPositive, hb]⟩
          intro _
          exact isLocallyBanned_markLocalBan s

/-- C2 witness: the three branches instantiated at concrete states and
network oracles. -/
theorem C2_checkIfBanned_witness :
    checkIfBanned ⟨[], [], ""⟩ ⟨Except.error (), Except.error (), Except.error ()⟩ true =
      ⟨⟨[], [], ""⟩, ⟨isLocallyBanned ⟨[], [], ""⟩, none⟩, []⟩ ∧
    checkIfBanned ⟨[("sp_access_blocked", "true")], [], ""⟩
        ⟨Except.error (), Except.error (), Except.error ()⟩ false =
      ⟨⟨[("sp_access_blocked", "true")], [], ""⟩, ⟨true, none⟩, []⟩ ∧
    ((checkIfBanned ⟨[], [], ""⟩
        ⟨Except.error (), Except.ok ⟨true, ⟨"banned", some "1.2.3.4"⟩⟩,
          Except.error ()⟩ false).result.isBanned = true) :=
  ⟨(C2_checkIfBanned ⟨[], [], ""⟩
      ⟨Except.error (), Except.error (), Except.error ()⟩ true).1 rfl,
   (C2_checkIfBanned ⟨[("sp_access_blocked", "true")], [], ""⟩
      ⟨Except.error (), Except.error (), Except.error ()⟩ false).2.1 rfl (by decide),
   (((C2_checkIfBanned ⟨[], [], ""⟩
      ⟨Except.error (), Except.ok ⟨true, ⟨"banned", some "1.2.3.4"⟩⟩,
        Except.error ()⟩ false).2.2 rfl (by decide)).1).mpr (by decide)⟩

/-- Every month has at least one day. -/
lemma daysInMonth_pos (y m : Nat) : 1 ≤ daysInMonth y m := by
  unfold daysInMonth
  repeat' split
  all_goals omega

/-- `setDate` with an in-range day number is the identity normalization. -/
lemma setDate_of_le (y m n : Nat) (h : n ≤ daysInMonth y m) :
    setDate y m n = ⟨y, m, n⟩ := by
  rw [setDate]
  simp [h]

/-- Normalizing day number `n + 1` is one calendar day after normalizing
day number `n`. -/
lemma setDate_succ :
    ∀ (n y m : Nat), 1 ≤ m → m ≤ 12 → 1 ≤ n →
      setDate y m (n + 1) = nextDay (setDate y m n) := by
  intro n
  induction n using Nat.strong_induction_on with
  | _ n ih =>
    intro y m hm1 hm2 hn
    by_cases h1 : n + 1 ≤ daysInMonth y m
    · have h0 : n ≤ daysInMonth y m := by omega
      rw [setDate_of_le y m (n + 1) h1, setDate_of_le y m n h0]
      have hlt : n < daysInMonth y m := by omega
      simp [nextDay, hlt]
    · by_cases h2 : n ≤ daysInMonth y m
      · have heq : n = daysInMonth y m := by omega
        rw [setDate_of_le y m n h2]
        rw [setDate, if_neg h1]
        have hlt : ¬ n < daysInMonth y m := by omega
        by_cases hm : m < 12
        · rw [if_pos hm]
          have e1 : n + 1 - daysInMonth y m = 1 := by omega
          rw [e1, setDate_of_le y (m + 1) 1 (daysInMonth_pos y (m + 1))]
          simp [nextDay, hlt, hm]
        · rw [if_neg hm]
          have e1 : n + 1 - daysInMonth y m = 1 := by omega
          rw [e1, setDate_of_le (y + 1) 1 1 (daysInMonth_pos (y + 1) 1)]
          simp [nextDay, hlt, hm]
      · have hp := daysInMonth_pos y m
        conv_lhs => rw [setDate]
        conv_rhs => rw [setDate]
        rw [if_neg h1, if_neg h2]
        by_cases hm : m < 12
        · rw [if_pos hm, if_pos hm]
          have e1 : n + 1 - daysInMonth y m = (n - daysInMonth y m) + 1 := by omega
          rw [e1]
          exact ih (n - daysInMonth y m) (by omega) y (m + 1) (by omega)
            (by omega) (by omega)
        · rw [if_neg hm, if_neg hm]
          have e1 : n + 1 - daysInMonth y m = (n - daysInMonth y m) + 1 := by omega
          rw [e1]
          exact ih (n - daysInMonth y m) (by omega) (y + 1) 1 (by omega)
            (by omega) (by omega)

/-- On a valid date, the `setDate(getDate() + i)` idiom computes exactly `i`
calendar days after the date. -/
lemma setDate_add (y m d : Nat) (hm1 : 1 ≤ m) (hm2 : m ≤ 12) (hd1 : 1 ≤ d)
    (hd2 : d ≤ daysInMonth y m) :
    ∀ i : Nat, setDate y m (d + i) = addDays ⟨y, m, d⟩ i := by
  intro i
  induction i with
  | zero => simpa [addDays] using setDate_of_le y m d hd2
  | succ i ihi =>
    have e1 : d + (i + 1) = (d + i) + 1 := by omega
    rw [e1, setDate_succ (d + i) y m hm1 hm2 (by omega), ihi]
    simp [addDays, Function.iterate_succ_apply']

/-- C10: on every valid current date, `getNextThreeDays()` returns exactly
three entries, the entry at index `i` belonging to the calendar day `i + 1`
days after the current date (month and year rollover included), and every
entry's `value` field ends in the literal year `/2025` regardless of the
current year. -/
theorem C10_getNextThreeDays (today : CivilDate) (hv : ValidDate today) :
    (getNextThreeDays today).length = 3 ∧
    (∀ i : Nat, i < 3 →
      (getNextThreeDays today)[i]? = some (mkDateEntry (addDays today (i + 1)))) ∧
    (∀ e ∈ getNextThreeDays today, ∃ p, e.value = p ++ "/2025") := by
  obtain ⟨hm1, hm2, hd1, hd2⟩ := hv
  have hset : ∀ j : Nat,
      setDate today.year today.month (today.day + j) = addDays today j :=
    setDate_add today.year today.month today.day hm1 hm2 hd1 hd2
  refine ⟨by simp [getNextThreeDays], ?_, ?_⟩
  · intro i hi
    interval_cases i <;> simp [getNextThreeDays, hset]
  · intro e he
    simp only [getNextThreeDays, List.mem_map] at he
    obtain ⟨i, _, rfl⟩ := he
    exact ⟨_, rfl⟩

/-- C10 witness: instantiated at the valid date 2026-10-12. -/
theorem C10_getNextThreeDays_witness :
    (getNextThreeDays ⟨2026, 10, 12⟩).length = 3 ∧
    (getNextThreeDays ⟨2026, 10, 12⟩)[0]? =
      some (mkDateEntry (addDays ⟨2026, 10, 12⟩ 1)) :=
  ⟨(C10_getNextThreeDays ⟨2026, 10, 12⟩ (by decide)).1,
   (C10_getNextThreeDays ⟨2026, 10, 12⟩ (by decide)).2.1 0 (by norm_num)⟩

end EnviosExtra
